import Mathlib

/-!
Shallow embedding of `pkg/sqlite/query.go` from operator-registry: a read-only
query layer over a relational catalog of packages, channels, bundles, the
replaces-graph of channel entries, and API-provider associations.

The store is modelled as lists of typed rows; nullable SQL columns are
`Option`-valued; each SQL query is translated into the corresponding
filter/join/group pipeline over those lists, and the Go row-scan loops into
explicit list processing. Errors are `Except String` carrying the exact
`fmt.Errorf` message of the source.
-/

deriving instance DecidableEq for Except

namespace Sqlite

/-- A row of the `package` table: `package(name, default_channel)`. -/
structure PackageRow where
  name : Option String
  default_channel : Option String
  deriving DecidableEq

/-- A row of the `channel` table: `channel(package_name, name, head_operatorbundle_name)`. -/
structure ChannelRow where
  package_name : Option String
  name : Option String
  head_operatorbundle_name : Option String
  deriving DecidableEq

/-- A row of the `operatorbundle` table: `operatorbundle(name, bundle)`. -/
structure OperatorBundleRow where
  name : Option String
  bundle : Option String
  deriving DecidableEq

/-- A row of the `channel_entry` table. `entry_id` is the unique node id of the
per-channel upgrade graph, `replaces` the nullable id of the entry this one
replaces, `depth` the distance from the channel head. -/
structure ChannelEntryRow where
  entry_id : Int
  package_name : Option String
  channel_name : Option String
  operatorbundle_name : Option String
  replaces : Option Int
  depth : Int
  deriving DecidableEq

/-- A row of the `api_provider` table, associating a channel entry with an API
descriptor `(groupOrName, version, kind)`. -/
structure ApiProviderRow where
  channel_entry_id : Int
  groupOrName : Option String
  version : Option String
  kind : Option String
  deriving DecidableEq

/-- The immutable store backing an `SQLQuerier`: one list of rows per table. -/
structure DB where
  package : List PackageRow
  channel : List ChannelRow
  operatorbundle : List OperatorBundleRow
  channel_entry : List ChannelEntryRow
  api_provider : List ApiProviderRow
  deriving DecidableEq

/-- `registry.PackageChannel`. -/
structure PackageChannel where
  Name : String
  CurrentCSVName : String
  deriving DecidableEq

/-- `registry.PackageManifest`. -/
structure PackageManifest where
  PackageName : String
  DefaultChannelName : String
  Channels : List PackageChannel
  deriving DecidableEq

/-- `registry.ChannelEntry`. -/
structure ChannelEntry where
  PackageName : String
  ChannelName : String
  BundleName : String
  Replaces : String
  deriving DecidableEq

/-- SQL equality on nullable values: true only when both operands are non-null
and equal (`NULL = x` is never true in a WHERE/ON clause). -/
def sqlEq {α : Type} [DecidableEq α] : Option α → Option α → Bool
  | some a, some b => decide (a = b)
  | _, _ => false

/-- Decoding a scanned `sql.NullString`: `.String` of an absent value is `""`. -/
def nullStr (o : Option String) : String := o.getD ""

/-- Helper for `SELECT DISTINCT`, carrying the rows already emitted. -/
def distinctFrom {α : Type} [DecidableEq α] (seen : List α) : List α → List α
  | [] => []
  | a :: as => if a ∈ seen then distinctFrom seen as else a :: distinctFrom (a :: seen) as

/-- `SELECT DISTINCT`: keep the first occurrence of every row value. -/
def sqlDistinct {α : Type} [DecidableEq α] (l : List α) : List α := distinctFrom [] l

/-- `LEFT OUTER JOIN`: every left row paired with each matching right row, or
with `none` when no right row matches. -/
def leftJoin {α β : Type} (ls : List α) (rs : List β) (cond : α → β → Bool) :
    List (α × Option β) :=
  ls.flatMap fun a =>
    if (rs.filter (cond a)).isEmpty then [(a, none)]
    else (rs.filter (cond a)).map fun b => (a, some b)

/-- `MIN(...)` over the (non-null, here `Int`) values of a group; `none` on an
empty group. -/
def sqlMin : List Int → Option Int
  | [] => none
  | d :: ds => some (ds.foldl min d)

/-- `GROUP BY`: the distinct grouping keys of a row list, in first-appearance
order. -/
def groupKeys {ρ κ : Type} [DecidableEq κ] (key : ρ → κ) (rows : List ρ) : List κ :=
  sqlDistinct (rows.map key)

/-- `GROUP BY`: the rows of the group with the given key. -/
def groupOf {ρ κ : Type} [DecidableEq κ] (key : ρ → κ) (rows : List ρ) (k : κ) : List ρ :=
  rows.filter fun r => decide (key r = k)

/-- Row chosen by the engine for a `GROUP BY` group when the selection carries a
`MIN(depth)` aggregate next to bare columns: a row of the group attaining the
minimal depth (the first such row in this model; the choice among equal-depth
rows is unspecified in the source). -/
def pickMinRow {ρ : Type} (d : ρ → Int) (g : List ρ) : Option ρ :=
  g.find? fun r => decide (sqlMin (g.map d) = some (d r))

/-- The row-scan loop shared by the multi-row operations: decode rows in order,
stopping at the first decode failure. Mirrors the Go
`for rows.Next() { if err := rows.Scan(...); err != nil { return } ... }`
pattern: the second component is the error (if any); entries decoded before a
failure are kept in the first component, none after it. -/
def scanLoop {ρ ε : Type} (rows : List ρ) (decode : ρ → Except String ε) :
    List ε × Option String :=
  match rows with
  | [] => ([], none)
  | r :: rs =>
    match decode r with
    | .error e => ([], some e)
    | .ok x =>
      let rest := scanLoop rs decode
      (x :: rest.1, rest.2)

/-- The `rows.Scan` body of `GetChannelEntriesThatReplace`: the `Replaces`
field is the queried bundle name itself. -/
def decodeReplaceEntry (name : String)
    (t : Option String × Option String × Option String) : ChannelEntry :=
  { PackageName := nullStr t.1, ChannelName := nullStr t.2.1,
    BundleName := nullStr t.2.2, Replaces := name }

/-- The `rows.Scan` body of `GetChannelEntriesThatProvide`. -/
def decodeProvideEntry
    (t : Option String × Option String × Option String × Option String) : ChannelEntry :=
  { PackageName := nullStr t.1, ChannelName := nullStr t.2.1,
    BundleName := nullStr t.2.2.1, Replaces := nullStr t.2.2.2 }

/-- The `rows.Scan` body of `GetLatestChannelEntriesThatProvide`; the scanned
`MIN(depth)` column is decoded but unused. -/
def decodeLatestProvideEntry
    (t : Option String × Option String × Option String × Option String × Int) : ChannelEntry :=
  { PackageName := nullStr t.1, ChannelName := nullStr t.2.1,
    BundleName := nullStr t.2.2.1, Replaces := nullStr t.2.2.2.1 }

/-- Common epilogue of the row-set operations: surface a scan error, report
not-found when the decoded entry list is empty, return the entries otherwise. -/
def finishRows (errMsg : String) (scanned : List ChannelEntry × Option String) :
    Except String (List ChannelEntry) :=
  match scanned.2 with
  | some e => .error e
  | none => if scanned.1.isEmpty then .error errMsg else .ok scanned.1

/-- `ListPackages`: `SELECT DISTINCT name FROM package`; a null name is skipped
by the scan loop (`if pkgName.Valid`), and an empty result is not an error. -/
def ListPackages (db : DB) : Except String (List String) :=
  let rows := sqlDistinct (db.package.map (·.name))
  .ok (rows.filterMap id)

/-- The row set of `GetPackage`'s query:
`SELECT DISTINCT package.name, default_channel, channel.name,
channel.head_operatorbundle_name FROM package INNER JOIN channel ON
channel.package_name=package.name WHERE package.name=?`. -/
def getPackageRows (db : DB) (name : String) :
    List (Option String × Option String × Option String × Option String) :=
  sqlDistinct <|
    (db.package.filter fun p => sqlEq p.name (some name)).flatMap fun p =>
      (db.channel.filter fun c => sqlEq c.package_name p.name).map fun c =>
        (p.name, p.default_channel, c.name, c.head_operatorbundle_name)

/-- The row-consumption of `GetPackage`: error if there is no row, decode the
first row into a one-channel manifest, and append a second channel if (and only
if) a second row exists; any further rows are never read. -/
def getPackageFromRows (name : String)
    (rows : List (Option String × Option String × Option String × Option String)) :
    Except String PackageManifest :=
  match rows with
  | [] => .error ("package " ++ name ++ " not found")
  | (pn, dc, cn, hb) :: rest =>
    let base : PackageManifest :=
      { PackageName := nullStr pn
        DefaultChannelName := nullStr dc
        Channels := [{ Name := nullStr cn, CurrentCSVName := nullStr hb }] }
    match rest with
    | [] => .ok base
    | (_, _, cn2, hb2) :: _ =>
      .ok { base with
            Channels := base.Channels ++ [{ Name := nullStr cn2, CurrentCSVName := nullStr hb2 }] }

/-- `GetPackage`. -/
def GetPackage (db : DB) (name : String) : Except String PackageManifest :=
  getPackageFromRows name (getPackageRows db name)

/-- The row set of `GetBundleForChannel`'s query:
`SELECT DISTINCT operatorbundle.bundle FROM channel INNER JOIN operatorbundle
ON channel.head_operatorbundle_name=operatorbundle.name WHERE
channel.package_name=? AND channel.name=? LIMIT 1`. -/
def bundleForChannelRows (db : DB) (pkgName channelName : String) : List (Option String) :=
  sqlDistinct <|
    (db.channel.filter fun c =>
        sqlEq c.package_name (some pkgName) && sqlEq c.name (some channelName)).flatMap fun c =>
      (db.operatorbundle.filter fun b => sqlEq c.head_operatorbundle_name b.name).map fun b =>
        b.bundle

/-- `GetBundleForChannel`. -/
def GetBundleForChannel (db : DB) (pkgName channelName : String) : Except String String :=
  match bundleForChannelRows db pkgName channelName with
  | [] => .error ("no bundle found for " ++ pkgName ++ " " ++ channelName)
  | b :: _ => .ok (nullStr b)

/-- The row set of `GetBundleForName`'s query:
`SELECT DISTINCT operatorbundle.bundle FROM operatorbundle WHERE
operatorbundle.name=? LIMIT 1`. -/
def bundleForNameRows (db : DB) (name : String) : List (Option String) :=
  sqlDistinct <|
    (db.operatorbundle.filter fun b => sqlEq b.name (some name)).map fun b => b.bundle

/-- `GetBundleForName`. -/
def GetBundleForName (db : DB) (name : String) : Except String String :=
  match bundleForNameRows db name with
  | [] => .error ("no bundle found named " ++ name)
  | b :: _ => .ok (nullStr b)

/-- The row set of `GetChannelEntriesThatReplace`'s query:
`SELECT DISTINCT channel_entry.package_name, channel_entry.channel_name,
channel_entry.operatorbundle_name FROM channel_entry LEFT OUTER JOIN
channel_entry replaces ON channel_entry.replaces = replaces.entry_id WHERE
replaces.operatorbundle_name = ?`. -/
def entriesThatReplaceRows (db : DB) (name : String) :
    List (Option String × Option String × Option String) :=
  sqlDistinct <|
    ((leftJoin db.channel_entry db.channel_entry fun ce rep =>
        sqlEq ce.replaces (some rep.entry_id)).filter fun x =>
      match x.2 with
      | some rep => sqlEq rep.operatorbundle_name (some name)
      | none => false).map fun x =>
      (x.1.package_name, x.1.channel_name, x.1.operatorbundle_name)

/-- `GetChannelEntriesThatReplace`: each row decodes to a `ChannelEntry` whose
`Replaces` field is the queried bundle name; an empty decoded set is a
not-found error. -/
def GetChannelEntriesThatReplace (db : DB) (name : String) :
    Except String (List ChannelEntry) :=
  finishRows ("no channel entries found that replace " ++ name)
    (scanLoop (entriesThatReplaceRows db name) fun t => .ok (decodeReplaceEntry name t))

/-- The join of `GetBundleThatReplaces`'s query before the WHERE clause:
`channel_entry LEFT OUTER JOIN channel_entry replaces ON replaces.replaces =
channel_entry.entry_id INNER JOIN operatorbundle ON
replaces.operatorbundle_name = operatorbundle.name`. -/
def bundleThatReplacesJoin (db : DB) :
    List (ChannelEntryRow × Option ChannelEntryRow × OperatorBundleRow) :=
  (leftJoin db.channel_entry db.channel_entry fun ce rep =>
      sqlEq rep.replaces (some ce.entry_id)).flatMap fun x =>
    (db.operatorbundle.filter fun b =>
      match x.2 with
      | some rep => sqlEq rep.operatorbundle_name b.name
      | none => false).map fun b => (x.1, x.2, b)

/-- The row set of `GetBundleThatReplaces`'s query: apply the WHERE clause on
the base entry's bundle name, package and channel, and select the payload
(`SELECT DISTINCT operatorbundle.bundle ... LIMIT 1`). -/
def bundleThatReplacesRows (db : DB) (name pkgName channelName : String) :
    List (Option String) :=
  sqlDistinct <|
    (bundleThatReplacesJoin db).filterMap fun y =>
      if sqlEq y.1.operatorbundle_name (some name) && sqlEq y.1.package_name (some pkgName)
          && sqlEq y.1.channel_name (some channelName)
      then some y.2.2.bundle
      else none

/-- `GetBundleThatReplaces`. -/
def GetBundleThatReplaces (db : DB) (name pkgName channelName : String) :
    Except String String :=
  match bundleThatReplacesRows db name pkgName channelName with
  | [] => .error ("no bundle found that replaces " ++ name)
  | b :: _ => .ok (nullStr b)

/-- A joined row of `channel_entry INNER JOIN api_provider ON
channel_entry.entry_id = api_provider.channel_entry_id LEFT OUTER JOIN
channel_entry replaces ON channel_entry.replaces = replaces.entry_id`,
projected to the columns the provide-queries read. -/
structure ProvideRow where
  package_name : Option String
  channel_name : Option String
  operatorbundle_name : Option String
  replaces_name : Option String
  depth : Int
  deriving DecidableEq

/-- The joined, WHERE-filtered row list shared by `GetChannelEntriesThatProvide`
and `GetLatestChannelEntriesThatProvide` (the WHERE clause constrains only
`api_provider` columns, so it is applied at the inner join). -/
def provideJoinRows (db : DB) (groupOrName version kind : String) : List ProvideRow :=
  (leftJoin
    (db.channel_entry.flatMap fun ce =>
      (db.api_provider.filter fun ap =>
        decide (ce.entry_id = ap.channel_entry_id) && sqlEq ap.groupOrName (some groupOrName)
          && sqlEq ap.version (some version) && sqlEq ap.kind (some kind)).map fun _ => ce)
    db.channel_entry fun ce rep => sqlEq ce.replaces (some rep.entry_id)).map fun x =>
    { package_name := x.1.package_name
      channel_name := x.1.channel_name
      operatorbundle_name := x.1.operatorbundle_name
      replaces_name := x.2.bind fun rep => rep.operatorbundle_name
      depth := x.1.depth }

/-- The row set of `GetChannelEntriesThatProvide`'s query: the joined rows
projected to the four selected columns, with `SELECT DISTINCT`. -/
def provideRows (db : DB) (groupOrName version kind : String) :
    List (Option String × Option String × Option String × Option String) :=
  sqlDistinct <|
    (provideJoinRows db groupOrName version kind).map fun r =>
      (r.package_name, r.channel_name, r.operatorbundle_name, r.replaces_name)

/-- `GetChannelEntriesThatProvide`. -/
def GetChannelEntriesThatProvide (db : DB) (groupOrName version kind : String) :
    Except String (List ChannelEntry) :=
  finishRows ("no channel entries found that provide " ++ groupOrName ++ " " ++ version
      ++ " " ++ kind)
    (scanLoop (provideRows db groupOrName version kind) fun t => .ok (decodeProvideEntry t))

/-- The `GROUP BY channel_entry.package_name, channel_entry.channel_name` key. -/
def provKey (r : ProvideRow) : Option String × Option String :=
  (r.package_name, r.channel_name)

/-- The grouped selection of `GetLatestChannelEntriesThatProvide`'s query:
group the joined rows by (package, channel) and select, from the row of each
group attaining `MIN(channel_entry.depth)`, the four bare columns plus the
aggregate. -/
def latestProvideSel (db : DB) (groupOrName version kind : String) :
    List (Option String × Option String × Option String × Option String × Int) :=
  (groupKeys provKey (provideJoinRows db groupOrName version kind)).filterMap fun key =>
    (pickMinRow ProvideRow.depth
      (groupOf provKey (provideJoinRows db groupOrName version kind) key)).map fun r =>
      (r.package_name, r.channel_name, r.operatorbundle_name, r.replaces_name, r.depth)

/-- The row set of `GetLatestChannelEntriesThatProvide`'s query: the grouped
selection under `SELECT DISTINCT`. -/
def latestProvideRows (db : DB) (groupOrName version kind : String) :
    List (Option String × Option String × Option String × Option String × Int) :=
  sqlDistinct (latestProvideSel db groupOrName version kind)

/-- `GetLatestChannelEntriesThatProvide`. -/
def GetLatestChannelEntriesThatProvide (db : DB) (groupOrName version kind : String) :
    Except String (List ChannelEntry) :=
  finishRows ("no channel entries found that provide " ++ groupOrName ++ " " ++ version
      ++ " " ++ kind)
    (scanLoop (latestProvideRows db groupOrName version kind) fun t =>
      .ok (decodeLatestProvideEntry t))

/-- A joined row of `GetBundleThatProvides`'s query:
`channel_entry INNER JOIN api_provider INNER JOIN operatorbundle INNER JOIN
package`, restricted by the WHERE clause (API descriptor matches and
`package.default_channel = channel_entry.channel_name`). -/
structure DefaultProvideRow where
  bundle : Option String
  depth : Int
  package_name : Option String
  channel_name : Option String
  deriving DecidableEq

/-- The joined, WHERE-filtered rows of `GetBundleThatProvides`. -/
def defaultProvideJoinRows (db : DB) (groupOrName version kind : String) :
    List DefaultProvideRow :=
  db.channel_entry.flatMap fun ce =>
    (db.api_provider.filter fun ap =>
      decide (ce.entry_id = ap.channel_entry_id) && sqlEq ap.groupOrName (some groupOrName)
        && sqlEq ap.version (some version) && sqlEq ap.kind (some kind)).flatMap fun _ =>
      (db.operatorbundle.filter fun b => sqlEq b.name ce.operatorbundle_name).flatMap fun b =>
        (db.package.filter fun p =>
          sqlEq p.name ce.package_name && sqlEq p.default_channel ce.channel_name).map fun _ =>
          { bundle := b.bundle, depth := ce.depth,
            package_name := ce.package_name, channel_name := ce.channel_name }

/-- The `GROUP BY` key of `GetBundleThatProvides`. -/
def defKey (r : DefaultProvideRow) : Option String × Option String :=
  (r.package_name, r.channel_name)

/-- The grouped selection of `GetBundleThatProvides`'s query: one row per
(package, channel) group, selecting `operatorbundle.bundle,
MIN(channel_entry.depth)` from the group row attaining the minimal depth. -/
def defaultProvideSel (db : DB) (groupOrName version kind : String) :
    List (Option String × Int) :=
  (groupKeys defKey (defaultProvideJoinRows db groupOrName version kind)).filterMap fun key =>
    (pickMinRow DefaultProvideRow.depth
      (groupOf defKey (defaultProvideJoinRows db groupOrName version kind) key)).map fun r =>
      (r.bundle, r.depth)

/-- The row set of `GetBundleThatProvides`'s query: the grouped selection
under `SELECT DISTINCT`. -/
def defaultProvideRows (db : DB) (groupOrName version kind : String) :
    List (Option String × Int) :=
  sqlDistinct (defaultProvideSel db groupOrName version kind)

/-- `GetBundleThatProvides`: only the first result row is read; a null payload
in that row is reported with the same not-found error as an empty result. -/
def GetBundleThatProvides (db : DB) (groupOrName version kind : String) :
    Except String String :=
  match defaultProvideRows db groupOrName version kind with
  | [] => .error ("no bundle found that provides " ++ groupOrName ++ " " ++ version
      ++ " " ++ kind)
  | (b, _) :: _ =>
    match b with
    | none => .error ("no bundle found that provides " ++ groupOrName ++ " " ++ version
        ++ " " ++ kind)
    | some s => .ok s

/-! Supporting lemmas about the relational primitives. -/

theorem mem_distinctFrom {α : Type} [DecidableEq α] (a : α) :
    ∀ (seen l : List α), a ∈ distinctFrom seen l ↔ a ∈ l ∧ a ∉ seen := by
  intro seen l
  induction l generalizing seen with
  | nil => simp [distinctFrom]
  | cons x xs ih =>
    by_cases hx : x ∈ seen
    · simp only [distinctFrom, if_pos hx, ih, List.mem_cons]
      constructor
      · rintro ⟨h1, h2⟩
        exact ⟨Or.inr h1, h2⟩
      · rintro ⟨h1 | h1, h2⟩
        · exact absurd (h1 ▸ hx) h2
        · exact ⟨h1, h2⟩
    · simp only [distinctFrom, if_neg hx, List.mem_cons, ih, not_or]
      constructor
      · rintro (rfl | ⟨h1, h2, h3⟩)
        · exact ⟨Or.inl rfl, hx⟩
        · exact ⟨Or.inr h1, h3⟩
      · rintro ⟨h1 | h1, h2⟩
        · exact Or.inl h1
        · by_cases hax : a = x
          · exact Or.inl hax
          · exact Or.inr ⟨h1, hax, h2⟩

theorem mem_sqlDistinct {α : Type} [DecidableEq α] (a : α) (l : List α) :
    a ∈ sqlDistinct l ↔ a ∈ l := by
  rw [sqlDistinct, mem_distinctFrom]
  simp

theorem nodup_distinctFrom {α : Type} [DecidableEq α] :
    ∀ (seen l : List α), (distinctFrom seen l).Nodup := by
  intro seen l
  induction l generalizing seen with
  | nil => exact List.nodup_nil
  | cons x xs ih =>
    by_cases hx : x ∈ seen
    · rw [distinctFrom, if_pos hx]
      exact ih seen
    · rw [distinctFrom, if_neg hx]
      refine List.nodup_cons.2 ⟨?_, ih _⟩
      intro hmem
      rcases (mem_distinctFrom x _ _).1 hmem with ⟨_, hns⟩
      exact hns (List.mem_cons_self _ _)

theorem nodup_sqlDistinct {α : Type} [DecidableEq α] (l : List α) :
    (sqlDistinct l).Nodup := nodup_distinctFrom [] l

theorem distinctFrom_eq_self {α : Type} [DecidableEq α] :
    ∀ (seen l : List α), l.Nodup → (∀ a ∈ l, a ∉ seen) → distinctFrom seen l = l := by
  intro seen l
  induction l generalizing seen with
  | nil => intro _ _; rfl
  | cons x xs ih =>
    intro hnd hdis
    have hx : x ∉ seen := hdis x (List.mem_cons_self _ _)
    rw [distinctFrom, if_neg hx]
    congr 1
    refine ih _ (List.nodup_cons.1 hnd).2 ?_
    intro a ha
    rw [List.mem_cons, not_or]
    exact ⟨fun h => (List.nodup_cons.1 hnd).1 (h ▸ ha), hdis a (List.mem_cons_of_mem _ ha)⟩

theorem sqlDistinct_eq_self {α : Type} [DecidableEq α] {l : List α} (h : l.Nodup) :
    sqlDistinct l = l :=
  distinctFrom_eq_self [] l h (by simp)

theorem sqlDistinct_eq_nil_iff {α : Type} [DecidableEq α] {l : List α} :
    sqlDistinct l = [] ↔ l = [] := by
  constructor
  · intro h
    refine List.eq_nil_iff_forall_not_mem.2 fun a ha => ?_
    have hmem := (mem_sqlDistinct a l).2 ha
    rw [h] at hmem
    exact absurd hmem (List.not_mem_nil a)
  · intro h
    subst h
    rfl

theorem mem_leftJoin_some {α β : Type} (ls : List α) (rs : List β) (cond : α → β → Bool)
    (a : α) (b : β) :
    (a, some b) ∈ leftJoin ls rs cond ↔ a ∈ ls ∧ b ∈ rs ∧ cond a b = true := by
  rw [leftJoin, List.mem_flatMap]
  constructor
  · rintro ⟨x, hx, hmem⟩
    by_cases hemp : (rs.filter (cond x)).isEmpty
    · rw [if_pos hemp] at hmem
      simp at hmem
    · rw [if_neg hemp, List.mem_map] at hmem
      rcases hmem with ⟨y, hy, heq⟩
      obtain ⟨rfl, rfl⟩ : x = a ∧ y = b := by
        refine ⟨congrArg Prod.fst heq, ?_⟩
        have := congrArg Prod.snd heq
        simpa using this
      rw [List.mem_filter] at hy
      exact ⟨hx, hy.1, hy.2⟩
  · rintro ⟨ha, hb, hc⟩
    refine ⟨a, ha, ?_⟩
    have hbf : b ∈ rs.filter (cond a) := List.mem_filter.2 ⟨hb, hc⟩
    have hemp : ¬(rs.filter (cond a)).isEmpty := by
      intro h
      rw [List.isEmpty_iff] at h
      rw [h] at hbf
      exact absurd hbf (List.not_mem_nil b)
    rw [if_neg hemp, List.mem_map]
    exact ⟨b, hbf, rfl⟩

theorem foldl_min_le_init : ∀ (ds : List Int) (d : Int), ds.foldl min d ≤ d := by
  intro ds
  induction ds with
  | nil => intro d; exact le_refl d
  | cons e es ih =>
    intro d
    rw [List.foldl_cons]
    exact le_trans (ih (min d e)) (min_le_left _ _)

theorem foldl_min_le_mem : ∀ (ds : List Int) (d : Int), ∀ x ∈ ds, ds.foldl min d ≤ x := by
  intro ds
  induction ds with
  | nil => intro d x hx; exact absurd hx (List.not_mem_nil x)
  | cons e es ih =>
    intro d x hx
    rw [List.foldl_cons]
    rcases List.mem_cons.1 hx with rfl | hx'
    · exact le_trans (foldl_min_le_init es _) (min_le_right _ _)
    · exact ih (min d e) x hx'

theorem foldl_min_mem : ∀ (ds : List Int) (d : Int), ds.foldl min d = d ∨ ds.foldl min d ∈ ds := by
  intro ds
  induction ds with
  | nil => intro d; exact Or.inl rfl
  | cons e es ih =>
    intro d
    rw [List.foldl_cons]
    rcases ih (min d e) with h | h
    · rcases min_choice d e with h2 | h2
      · exact Or.inl (h.trans h2)
      · exact Or.inr (by rw [h, h2]; exact List.mem_cons_self _ _)
    · exact Or.inr (List.mem_cons_of_mem _ h)

theorem sqlMin_le {l : List Int} {m : Int} (h : sqlMin l = some m) : ∀ x ∈ l, m ≤ x := by
  cases l with
  | nil => exact absurd h (by simp [sqlMin])
  | cons d ds =>
    have hm : ds.foldl min d = m := by
      have := h
      rw [sqlMin] at this
      exact Option.some.inj this
    intro x hx
    rcases List.mem_cons.1 hx with rfl | hx'
    · exact hm ▸ foldl_min_le_init ds x
    · exact hm ▸ foldl_min_le_mem ds d x hx'

theorem sqlMin_mem {l : List Int} {m : Int} (h : sqlMin l = some m) : m ∈ l := by
  cases l with
  | nil => exact absurd h (by simp [sqlMin])
  | cons d ds =>
    have hm : ds.foldl min d = m := by
      rw [sqlMin] at h
      exact Option.some.inj h
    rcases foldl_min_mem ds d with h2 | h2
    · rw [← hm, h2]
      exact List.mem_cons_self _ _
    · rw [← hm]
      exact List.mem_cons_of_mem _ h2

theorem sqlMin_isSome {l : List Int} (h : l ≠ []) : ∃ m, sqlMin l = some m := by
  cases l with
  | nil => exact absurd rfl h
  | cons d ds => exact ⟨ds.foldl min d, rfl⟩

theorem pickMinRow_eq_some {ρ : Type} {d : ρ → Int} {g : List ρ} {r : ρ}
    (h : pickMinRow d g = some r) : r ∈ g ∧ ∀ x ∈ g, d r ≤ d x := by
  have hr : r ∈ g := List.mem_of_find?_eq_some h
  have hp := List.find?_some h
  rw [decide_eq_true_eq] at hp
  exact ⟨hr, fun x hx => sqlMin_le hp (d x) (List.mem_map_of_mem d hx)⟩

theorem pickMinRow_isSome {ρ : Type} {d : ρ → Int} {g : List ρ} (h : g ≠ []) :
    ∃ r, pickMinRow d g = some r := by
  have hmap : g.map d ≠ [] := by simpa using h
  obtain ⟨m, hm⟩ := sqlMin_isSome hmap
  obtain ⟨r0, hr0, hdr⟩ := List.mem_map.1 (sqlMin_mem hm)
  have hsome : (g.find? fun r => decide (sqlMin (g.map d) = some (d r))).isSome := by
    rw [List.find?_isSome]
    exact ⟨r0, hr0, by rw [decide_eq_true_eq, hdr, hm]⟩
  obtain ⟨r, hr⟩ := Option.isSome_iff_exists.1 hsome
  exact ⟨r, hr⟩

theorem scanLoop_ok {ρ ε : Type} (f : ρ → ε) :
    ∀ rows : List ρ, scanLoop rows (fun r => .ok (f r)) = (rows.map f, none) := by
  intro rows
  induction rows with
  | nil => rfl
  | cons r rs ih => simp [scanLoop, ih]

theorem length_filterMap_of_isSome {α β : Type} (f : α → Option β) :
    ∀ l : List α, (∀ a ∈ l, (f a).isSome) → (l.filterMap f).length = l.length := by
  intro l
  induction l with
  | nil => intro _; rfl
  | cons a as ih =>
    intro h
    obtain ⟨b, hb⟩ := Option.isSome_iff_exists.1 (h a (List.mem_cons_self _ _))
    rw [List.filterMap_cons, hb, List.length_cons,
      ih fun x hx => h x (List.mem_cons_of_mem _ hx), List.length_cons]

theorem mem_groupOf {ρ κ : Type} [DecidableEq κ] {key : ρ → κ} {rows : List ρ} {k : κ} {r : ρ} :
    r ∈ groupOf key rows k ↔ r ∈ rows ∧ key r = k := by
  simp [groupOf, List.mem_filter]

theorem mem_groupKeys {ρ κ : Type} [DecidableEq κ] {key : ρ → κ} {rows : List ρ} {k : κ} :
    k ∈ groupKeys key rows ↔ ∃ r ∈ rows, key r = k := by
  rw [groupKeys, mem_sqlDistinct, List.mem_map]

theorem groupOf_ne_nil {ρ κ : Type} [DecidableEq κ] {key : ρ → κ} {rows : List ρ} {k : κ}
    (h : k ∈ groupKeys key rows) : groupOf key rows k ≠ [] := by
  obtain ⟨r, hr, hk⟩ := mem_groupKeys.1 h
  exact List.ne_nil_of_mem (mem_groupOf.2 ⟨hr, hk⟩)

theorem sqlEq_some_iff {α : Type} [DecidableEq α] {o : Option α} {a : α} :
    sqlEq o (some a) = true ↔ o = some a := by
  cases o <;> simp [sqlEq]

theorem sqlEq_true_iff {α : Type} [DecidableEq α] {o o' : Option α} :
    sqlEq o o' = true ↔ ∃ a, o = some a ∧ o' = some a := by
  cases o <;> cases o' <;> simp [sqlEq, eq_comm]

theorem finishRows_ok_iff {errMsg : String} {l entries : List ChannelEntry} :
    finishRows errMsg (l, none) = .ok entries ↔ entries = l ∧ l ≠ [] := by
  show (if l.isEmpty then Except.error errMsg else Except.ok l) = .ok entries ↔ _
  by_cases h : l.isEmpty
  · rw [if_pos h]
    simp [List.isEmpty_iff.1 h]
  · rw [if_neg h]
    constructor
    · intro he
      refine ⟨(Except.ok.inj he).symm, fun hnil => h ?_⟩
      rw [hnil]
      rfl
    · rintro ⟨rfl, _⟩
      rfl

theorem finishRows_ne_nil_ok {errMsg : String} {l : List ChannelEntry} (h : l ≠ []) :
    finishRows errMsg (l, none) = .ok l :=
  finishRows_ok_iff.2 ⟨rfl, h⟩

theorem mem_grouped_sel {ρ κ σ : Type} [DecidableEq κ] (key : ρ → κ) (d : ρ → Int)
    (proj : ρ → σ) (rows : List ρ) (t : σ) :
    t ∈ ((groupKeys key rows).filterMap fun k => (pickMinRow d (groupOf key rows k)).map proj)
      ↔ ∃ k ∈ groupKeys key rows, ∃ r,
          pickMinRow d (groupOf key rows k) = some r ∧ proj r = t := by
  rw [List.mem_filterMap]
  constructor
  · rintro ⟨k, hk, hmap⟩
    rcases Option.map_eq_some'.1 hmap with ⟨r, hr, hproj⟩
    exact ⟨k, hk, r, hr, hproj⟩
  · rintro ⟨k, hk, r, hr, hproj⟩
    refine ⟨k, hk, ?_⟩
    rw [hr]
    simpa using hproj

theorem grouped_sel_length {ρ κ σ : Type} [DecidableEq κ] (key : ρ → κ) (d : ρ → Int)
    (proj : ρ → σ) (rows : List ρ) :
    ((groupKeys key rows).filterMap fun k => (pickMinRow d (groupOf key rows k)).map proj).length
      = (groupKeys key rows).length := by
  apply length_filterMap_of_isSome
  intro k hk
  obtain ⟨r, hr⟩ := pickMinRow_isSome (groupOf_ne_nil hk)
  rw [hr]
  rfl

theorem grouped_sel_nodup {ρ κ σ : Type} [DecidableEq κ] (key : ρ → κ) (d : ρ → Int)
    (proj : ρ → σ) (rows : List ρ) (recover : σ → κ)
    (hrec : ∀ r, recover (proj r) = key r) :
    ((groupKeys key rows).filterMap fun k =>
      (pickMinRow d (groupOf key rows k)).map proj).Nodup := by
  refine List.Nodup.filterMap ?_ (nodup_sqlDistinct _)
  intro k1 k2 t ht1 ht2
  rw [Option.mem_def] at ht1 ht2
  rcases Option.map_eq_some'.1 ht1 with ⟨r1, hr1, hp1⟩
  rcases Option.map_eq_some'.1 ht2 with ⟨r2, hr2, hp2⟩
  have hk1 : key r1 = k1 := (mem_groupOf.1 (pickMinRow_eq_some hr1).1).2
  have hk2 : key r2 = k2 := (mem_groupOf.1 (pickMinRow_eq_some hr2).1).2
  rw [← hk1, ← hk2, ← hrec r1, ← hrec r2, hp1, hp2]

theorem mem_entriesThatReplaceRows {db : DB} {name : String}
    {t : Option String × Option String × Option String} :
    t ∈ entriesThatReplaceRows db name ↔
      ∃ ce ∈ db.channel_entry, ∃ rep ∈ db.channel_entry,
        sqlEq ce.replaces (some rep.entry_id) = true
        ∧ rep.operatorbundle_name = some name
        ∧ t = (ce.package_name, ce.channel_name, ce.operatorbundle_name) := by
  rw [entriesThatReplaceRows, mem_sqlDistinct, List.mem_map]
  constructor
  · rintro ⟨⟨ce, rep?⟩, hx, ht⟩
    rw [List.mem_filter] at hx
    obtain ⟨hjoin, hcond⟩ := hx
    cases rep? with
    | none => exact absurd hcond (by simp)
    | some rep =>
      rw [mem_leftJoin_some] at hjoin
      refine ⟨ce, hjoin.1, rep, hjoin.2.1, hjoin.2.2, ?_, ht.symm⟩
      exact sqlEq_some_iff.1 hcond
  · rintro ⟨ce, hce, rep, hrep, hedge, hname, rfl⟩
    refine ⟨(ce, some rep), ?_, rfl⟩
    rw [List.mem_filter]
    exact ⟨(mem_leftJoin_some _ _ _ _ _).2 ⟨hce, hrep, hedge⟩, sqlEq_some_iff.2 hname⟩

theorem mem_bundleThatReplacesRows {db : DB} {name pkgName channelName : String}
    {t : Option String} :
    t ∈ bundleThatReplacesRows db name pkgName channelName ↔
      ∃ ce ∈ db.channel_entry, ∃ rep ∈ db.channel_entry, ∃ ob ∈ db.operatorbundle,
        sqlEq rep.replaces (some ce.entry_id) = true
        ∧ sqlEq rep.operatorbundle_name ob.name = true
        ∧ ce.operatorbundle_name = some name ∧ ce.package_name = some pkgName
        ∧ ce.channel_name = some channelName ∧ t = ob.bundle := by
  rw [bundleThatReplacesRows, mem_sqlDistinct, List.mem_filterMap]
  constructor
  · rintro ⟨y, hy, hsome⟩
    rw [bundleThatReplacesJoin, List.mem_flatMap] at hy
    obtain ⟨⟨ce, rep?⟩, hx, hy2⟩ := hy
    rw [List.mem_map] at hy2
    obtain ⟨ob, hob, rfl⟩ := hy2
    rw [List.mem_filter] at hob
    obtain ⟨hobmem, hmatch⟩ := hob
    cases rep? with
    | none => exact absurd hmatch (by simp)
    | some rep =>
      rw [mem_leftJoin_some] at hx
      by_cases hcond : (sqlEq ce.operatorbundle_name (some name)
          && sqlEq ce.package_name (some pkgName)
          && sqlEq ce.channel_name (some channelName)) = true
      · rw [if_pos hcond] at hsome
        rw [Bool.and_eq_true, Bool.and_eq_true] at hcond
        exact ⟨ce, hx.1, rep, hx.2.1, ob, hobmem, hx.2.2, hmatch,
          sqlEq_some_iff.1 hcond.1.1, sqlEq_some_iff.1 hcond.1.2,
          sqlEq_some_iff.1 hcond.2, (Option.some.inj hsome).symm⟩
      · rw [if_neg hcond] at hsome
        exact absurd hsome (by simp)
  · rintro ⟨ce, hce, rep, hrep, ob, hob, hedge, hbname, hn, hp, hc, rfl⟩
    refine ⟨(ce, some rep, ob), ?_, ?_⟩
    · rw [bundleThatReplacesJoin, List.mem_flatMap]
      refine ⟨(ce, some rep), (mem_leftJoin_some _ _ _ _ _).2 ⟨hce, hrep, hedge⟩, ?_⟩
      rw [List.mem_map]
      exact ⟨ob, List.mem_filter.2 ⟨hob, hbname⟩, rfl⟩
    · rw [if_pos]
      rw [Bool.and_eq_true, Bool.and_eq_true]
      exact ⟨⟨sqlEq_some_iff.2 hn, sqlEq_some_iff.2 hp⟩, sqlEq_some_iff.2 hc⟩

/-! Concrete stores used as test scenarios (spec §8). -/

/-- The empty catalog: no rows in any table. -/
def emptyDB : DB :=
  { package := [], channel := [], operatorbundle := [], channel_entry := [], api_provider := [] }

/-- Spec §8 concrete scenario, first stage: package `etcd`, default channel
`alpha`, head bundle `etcd.v1.0.0` at depth 0 providing
`(etcd.database.coreos.com, v1, EtcdCluster)`. -/
def etcdDB1 : DB :=
  { package := [{ name := some "etcd", default_channel := some "alpha" }]
    channel := [{ package_name := some "etcd", name := some "alpha",
                  head_operatorbundle_name := some "etcd.v1.0.0" }]
    operatorbundle := [{ name := some "etcd.v1.0.0", bundle := some "payload-1.0.0" }]
    channel_entry := [{ entry_id := 1, package_name := some "etcd", channel_name := some "alpha",
                        operatorbundle_name := some "etcd.v1.0.0", replaces := none, depth := 0 }]
    api_provider := [{ channel_entry_id := 1, groupOrName := some "etcd.database.coreos.com",
                       version := some "v1", kind := some "EtcdCluster" }] }

/-- Spec §8 concrete scenario, second stage: `etcd.v0.9.0` added at depth 1,
replaced by `etcd.v1.0.0`, providing the same API. -/
def etcdDB2 : DB :=
  { package := etcdDB1.package
    channel := etcdDB1.channel
    operatorbundle := etcdDB1.operatorbundle
      ++ [{ name := some "etcd.v0.9.0", bundle := some "payload-0.9.0" }]
    channel_entry :=
      [{ entry_id := 1, package_name := some "etcd", channel_name := some "alpha",
         operatorbundle_name := some "etcd.v1.0.0", replaces := some 2, depth := 0 },
       { entry_id := 2, package_name := some "etcd", channel_name := some "alpha",
         operatorbundle_name := some "etcd.v0.9.0", replaces := none, depth := 1 }]
    api_provider := etcdDB1.api_provider
      ++ [{ channel_entry_id := 2, groupOrName := some "etcd.database.coreos.com",
            version := some "v1", kind := some "EtcdCluster" }] }

/-- Spec §8 replaces-chain scenario: head→A→B→C at depths 0..3 in channel
(P, Ch), with the API (g, v, k) provided by both B and C. -/
def chainDB : DB :=
  { package := [{ name := some "P", default_channel := some "Ch" }]
    channel := [{ package_name := some "P", name := some "Ch",
                  head_operatorbundle_name := some "head" }]
    operatorbundle :=
      [{ name := some "head", bundle := some "pl-head" },
       { name := some "A", bundle := some "pl-A" },
       { name := some "B", bundle := some "pl-B" },
       { name := some "C", bundle := some "pl-C" }]
    channel_entry :=
      [{ entry_id := 10, package_name := some "P", channel_name := some "Ch",
         operatorbundle_name := some "head", replaces := some 11, depth := 0 },
       { entry_id := 11, package_name := some "P", channel_name := some "Ch",
         operatorbundle_name := some "A", replaces := some 12, depth := 1 },
       { entry_id := 12, package_name := some "P", channel_name := some "Ch",
         operatorbundle_name := some "B", replaces := some 13, depth := 2 },
       { entry_id := 13, package_name := some "P", channel_name := some "Ch",
         operatorbundle_name := some "C", replaces := none, depth := 3 }]
    api_provider :=
      [{ channel_entry_id := 12, groupOrName := some "g", version := some "v", kind := some "k" },
       { channel_entry_id := 13, groupOrName := some "g", version := some "v", kind := some "k" }] }

/-- A catalog whose only default-channel provider of (g, v, k) has a null
`bundle` payload, while the row itself matches the query. -/
def nullPayloadDB : DB :=
  { package := [{ name := some "P", default_channel := some "Ch" }]
    channel := [{ package_name := some "P", name := some "Ch",
                  head_operatorbundle_name := some "b1" }]
    operatorbundle := [{ name := some "b1", bundle := none }]
    channel_entry := [{ entry_id := 1, package_name := some "P", channel_name := some "Ch",
                        operatorbundle_name := some "b1", replaces := none, depth := 0 }]
    api_provider := [{ channel_entry_id := 1, groupOrName := some "g",
                       version := some "v", kind := some "k" }] }

/-- A catalog holding a package row with no channel rows at all. -/
def soloPkgDB : DB :=
  { package := [{ name := some "solo", default_channel := some "x" }]
    channel := [], operatorbundle := [], channel_entry := [], api_provider := [] }

/-- A catalog whose package `multi` has three channels. -/
def threeChanDB : DB :=
  { package := [{ name := some "multi", default_channel := some "c1" }]
    channel :=
      [{ package_name := some "multi", name := some "c1", head_operatorbundle_name := some "b1" },
       { package_name := some "multi", name := some "c2", head_operatorbundle_name := some "b2" },
       { package_name := some "multi", name := some "c3", head_operatorbundle_name := some "b3" }]
    operatorbundle := [], channel_entry := [], api_provider := [] }

/-- A catalog containing bundle `X` at a channel entry that nothing replaces. -/
def nothingReplacesDB : DB :=
  { package := [{ name := some "P", default_channel := some "Ch" }]
    channel := [{ package_name := some "P", name := some "Ch",
                  head_operatorbundle_name := some "X" }]
    operatorbundle := [{ name := some "X", bundle := some "pl-X" }]
    channel_entry := [{ entry_id := 1, package_name := some "P", channel_name := some "Ch",
                        operatorbundle_name := some "X", replaces := none, depth := 0 }]
    api_provider := [] }

/-! Claim theorems. -/

/-- C7: on an empty catalog, `ListPackages` returns the empty set without
error, while every other operation fails with its not-found error for every
input. -/
theorem emptyCatalog_boundary :
    ListPackages emptyDB = .ok []
    ∧ (∀ name, GetPackage emptyDB name = .error ("package " ++ name ++ " not found"))
    ∧ (∀ p c, GetBundleForChannel emptyDB p c = .error ("no bundle found for " ++ p ++ " " ++ c))
    ∧ (∀ n, GetBundleForName emptyDB n = .error ("no bundle found named " ++ n))
    ∧ (∀ n, GetChannelEntriesThatReplace emptyDB n
        = .error ("no channel entries found that replace " ++ n))
    ∧ (∀ n p c, GetBundleThatReplaces emptyDB n p c
        = .error ("no bundle found that replaces " ++ n))
    ∧ (∀ g v kd, GetChannelEntriesThatProvide emptyDB g v kd
        = .error ("no channel entries found that provide " ++ g ++ " " ++ v ++ " " ++ kd))
    ∧ (∀ g v kd, GetLatestChannelEntriesThatProvide emptyDB g v kd
        = .error ("no channel entries found that provide " ++ g ++ " " ++ v ++ " " ++ kd))
    ∧ (∀ g v kd, GetBundleThatProvides emptyDB g v kd
        = .error ("no bundle found that provides " ++ g ++ " " ++ v ++ " " ++ kd)) :=
  ⟨rfl, fun _ => rfl, fun _ _ => rfl, fun _ => rfl, fun _ => rfl, fun _ _ _ => rfl,
    fun _ _ _ => rfl, fun _ _ _ => rfl, fun _ _ _ => rfl⟩

/-- C9: every operation is a pure function of the immutable store and its
parameters, so two calls with identical parameters against the same store
return identical results. -/
theorem idempotent_queries (db : DB) (name p c g v kd : String) :
    ListPackages db = ListPackages db
    ∧ GetPackage db name = GetPackage db name
    ∧ GetBundleForChannel db p c = GetBundleForChannel db p c
    ∧ GetBundleForName db name = GetBundleForName db name
    ∧ GetChannelEntriesThatReplace db name = GetChannelEntriesThatReplace db name
    ∧ GetBundleThatReplaces db name p c = GetBundleThatReplaces db name p c
    ∧ GetChannelEntriesThatProvide db g v kd = GetChannelEntriesThatProvide db g v kd
    ∧ GetLatestChannelEntriesThatProvide db g v kd
        = GetLatestChannelEntriesThatProvide db g v kd
    ∧ GetBundleThatProvides db g v kd = GetBundleThatProvides db g v kd :=
  ⟨rfl, rfl, rfl, rfl, rfl, rfl, rfl, rfl, rfl⟩

/-- C10: a package row that matches the queried name but has no channel rows
still yields the package-not-found error, because the inner join between
`package` and `channel` produces no rows. -/
theorem getPackage_noChannels_notFound (db : DB) (name : String)
    (hpkg : ∃ p ∈ db.package, p.name = some name)
    (hchan : ∀ c ∈ db.channel, c.package_name ≠ some name) :
    GetPackage db name = .error ("package " ++ name ++ " not found") := by
  have hrows : getPackageRows db name = [] := by
    unfold getPackageRows
    rw [sqlDistinct_eq_nil_iff]
    refine List.eq_nil_iff_forall_not_mem.2 fun t ht => ?_
    rw [List.mem_flatMap] at ht
    obtain ⟨p, hp, ht2⟩ := ht
    rw [List.mem_filter] at hp
    have hpn : p.name = some name := sqlEq_some_iff.1 hp.2
    rw [List.mem_map] at ht2
    obtain ⟨ch, hch, _⟩ := ht2
    rw [List.mem_filter] at hch
    obtain ⟨a, hc1, hc2⟩ := sqlEq_true_iff.1 hch.2
    rw [hpn] at hc2
    obtain rfl : name = a := Option.some.inj hc2
    exact hchan ch hch.1 hc1
  unfold GetPackage
  rw [hrows]
  rfl

/-- C10 witness: a store holding only the package row `solo` with no channels. -/
theorem getPackage_noChannels_notFound_witness :
    GetPackage soloPkgDB "solo" = .error "package solo not found" :=
  getPackage_noChannels_notFound soloPkgDB "solo"
    ⟨{ name := some "solo", default_channel := some "x" }, by decide, rfl⟩
    (fun c hc => absurd hc (List.not_mem_nil c))

/-- `GetPackage` only ever consumes the first two result rows. -/
theorem getPackageFromRows_take_two (name : String) :
    ∀ rows, getPackageFromRows name rows = getPackageFromRows name (rows.take 2) := by
  intro rows
  match rows with
  | [] => rfl
  | [t1] => rfl
  | t1 :: t2 :: rest => rfl

/-- Any manifest built by `getPackageFromRows` holds one or two channels. -/
theorem getPackageFromRows_channels (name : String) :
    ∀ rows m, getPackageFromRows name rows = .ok m →
      1 ≤ m.Channels.length ∧ m.Channels.length ≤ 2 := by
  intro rows m hm
  cases rows with
  | nil => exact absurd hm (by simp [getPackageFromRows])
  | cons t1 rest =>
    obtain ⟨pn, dc, cn, hb⟩ := t1
    cases rest with
    | nil =>
      simp only [getPackageFromRows] at hm
      obtain rfl := Except.ok.inj hm
      exact ⟨by simp, by simp⟩
    | cons t2 rest2 =>
      obtain ⟨pn2, dc2, cn2, hb2⟩ := t2
      simp only [getPackageFromRows] at hm
      obtain rfl := Except.ok.inj hm
      exact ⟨by simp, by simp⟩

/-- C4: `GetPackage` fails with not-found when no package row matches the
name; any returned manifest holds at least one and at most two channels; and
the result never depends on result rows beyond the second. -/
theorem getPackage_channel_truncation (db : DB) (name : String) :
    ((∀ p ∈ db.package, p.name ≠ some name) →
      GetPackage db name = .error ("package " ++ name ++ " not found"))
    ∧ (∀ m, GetPackage db name = .ok m → 1 ≤ m.Channels.length ∧ m.Channels.length ≤ 2)
    ∧ GetPackage db name = getPackageFromRows name ((getPackageRows db name).take 2) := by
  refine ⟨?_, ?_, ?_⟩
  · intro h
    have hrows : getPackageRows db name = [] := by
      unfold getPackageRows
      rw [sqlDistinct_eq_nil_iff]
      refine List.eq_nil_iff_forall_not_mem.2 fun t ht => ?_
      rw [List.mem_flatMap] at ht
      obtain ⟨p, hp, _⟩ := ht
      rw [List.mem_filter] at hp
      exact h p hp.1 (sqlEq_some_iff.1 hp.2)
    unfold GetPackage
    rw [hrows]
    rfl
  · intro m hm
    exact getPackageFromRows_channels name (getPackageRows db name) m hm
  · exact getPackageFromRows_take_two name _

/-- C4 witness: at a name with no matching package row the not-found error is
produced, and the manifest of the three-channel package `multi` carries
exactly two channels. -/
theorem getPackage_channel_truncation_witness :
    GetPackage etcdDB1 "nope" = .error "package nope not found"
    ∧ (1 ≤ (PackageManifest.Channels
          { PackageName := "multi", DefaultChannelName := "c1",
            Channels := [{ Name := "c1", CurrentCSVName := "b1" },
                         { Name := "c2", CurrentCSVName := "b2" }] }).length
      ∧ (PackageManifest.Channels
          { PackageName := "multi", DefaultChannelName := "c1",
            Channels := [{ Name := "c1", CurrentCSVName := "b1" },
                         { Name := "c2", CurrentCSVName := "b2" }] }).length ≤ 2) :=
  ⟨(getPackage_channel_truncation etcdDB1 "nope").1 (by decide),
   (getPackage_channel_truncation threeChanDB "multi").2.1 _ (by decide)⟩

/-- C3: `GetBundleThatReplaces(name, pkg, channel)` fails with not-found when
no entry of that (package, channel) carrying `name` is pointed at by a
replaces-edge, and any returned payload is the bundle of an entry whose
replaces-edge points at the entry carrying `name`; in the chain head→A→B→C,
querying B yields A's payload. -/
theorem getBundleThatReplaces_spec (db : DB) (name pkgName channelName : String) :
    ((∀ ce ∈ db.channel_entry, ∀ rep ∈ db.channel_entry,
        ¬(rep.replaces = some ce.entry_id ∧ ce.operatorbundle_name = some name
          ∧ ce.package_name = some pkgName ∧ ce.channel_name = some channelName)) →
      GetBundleThatReplaces db name pkgName channelName
        = .error ("no bundle found that replaces " ++ name))
    ∧ (∀ b, GetBundleThatReplaces db name pkgName channelName = .ok b →
        ∃ ce ∈ db.channel_entry, ∃ rep ∈ db.channel_entry, ∃ ob ∈ db.operatorbundle,
          rep.replaces = some ce.entry_id
          ∧ (∃ s, rep.operatorbundle_name = some s ∧ ob.name = some s)
          ∧ ce.operatorbundle_name = some name ∧ ce.package_name = some pkgName
          ∧ ce.channel_name = some channelName ∧ b = nullStr ob.bundle)
    ∧ GetBundleThatReplaces chainDB "B" "P" "Ch" = .ok "pl-A" := by
  refine ⟨?_, ?_, by decide⟩
  · intro h
    have hrows : bundleThatReplacesRows db name pkgName channelName = [] := by
      refine List.eq_nil_iff_forall_not_mem.2 fun t ht => ?_
      obtain ⟨ce, hce, rep, hrep, _, _, hedge, _, hn, hp, hc, _⟩ :=
        mem_bundleThatReplacesRows.1 ht
      exact h ce hce rep hrep ⟨sqlEq_some_iff.1 hedge, hn, hp, hc⟩
    unfold GetBundleThatReplaces
    rw [hrows]
  · intro b hb
    unfold GetBundleThatReplaces at hb
    rcases hrows : bundleThatReplacesRows db name pkgName channelName with _ | ⟨t, rest⟩
    · rw [hrows] at hb
      exact absurd hb (by simp)
    · rw [hrows] at hb
      obtain rfl : nullStr t = b := Except.ok.inj hb
      have hmem : t ∈ bundleThatReplacesRows db name pkgName channelName := by
        rw [hrows]
        exact List.mem_cons_self _ _
      obtain ⟨ce, hce, rep, hrep, ob, hob, hedge, hbname, hn, hp, hc, rfl⟩ :=
        mem_bundleThatReplacesRows.1 hmem
      exact ⟨ce, hce, rep, hrep, ob, hob, sqlEq_some_iff.1 hedge,
        sqlEq_true_iff.1 hbname, hn, hp, hc, rfl⟩

/-- C3 witness: in a store where nothing replaces bundle `X`, the not-found
error is produced. -/
theorem getBundleThatReplaces_spec_witness :
    GetBundleThatReplaces nothingReplacesDB "X" "P" "Ch"
      = .error "no bundle found that replaces X" :=
  (getBundleThatReplaces_spec nothingReplacesDB "X" "P" "Ch").1 (by decide)

/-- C6: `GetChannelEntriesThatReplace(name)` fails with not-found when no
replaces-edge points at an entry carrying `name` (so a bundle nothing replaces
and a nonexistent bundle fail identically), and otherwise returns exactly the
entries whose replaces-edge points at an entry carrying `name`, each with its
`Replaces` field equal to the queried name. -/
theorem getChannelEntriesThatReplace_spec (db : DB) (name : String) :
    ((∀ ce ∈ db.channel_entry, ∀ rep ∈ db.channel_entry,
        ¬(ce.replaces = some rep.entry_id ∧ rep.operatorbundle_name = some name)) →
      GetChannelEntriesThatReplace db name
        = .error ("no channel entries found that replace " ++ name))
    ∧ (∀ entries, GetChannelEntriesThatReplace db name = .ok entries →
        (∀ e ∈ entries, e.Replaces = name
          ∧ ∃ ce ∈ db.channel_entry, ∃ rep ∈ db.channel_entry,
              ce.replaces = some rep.entry_id ∧ rep.operatorbundle_name = some name
              ∧ e = decodeReplaceEntry name
                  (ce.package_name, ce.channel_name, ce.operatorbundle_name))
        ∧ (∀ ce ∈ db.channel_entry, ∀ rep ∈ db.channel_entry,
            ce.replaces = some rep.entry_id → rep.operatorbundle_name = some name →
              decodeReplaceEntry name
                  (ce.package_name, ce.channel_name, ce.operatorbundle_name) ∈ entries))
    ∧ (GetChannelEntriesThatReplace nothingReplacesDB "X"
          = .error "no channel entries found that replace X"
      ∧ GetChannelEntriesThatReplace emptyDB "X"
          = .error "no channel entries found that replace X") := by
  refine ⟨?_, ?_, by decide, by decide⟩
  · intro h
    have hrows : entriesThatReplaceRows db name = [] := by
      refine List.eq_nil_iff_forall_not_mem.2 fun t ht => ?_
      obtain ⟨ce, hce, rep, hrep, hedge, hname, _⟩ := mem_entriesThatReplaceRows.1 ht
      exact h ce hce rep hrep ⟨sqlEq_some_iff.1 hedge, hname⟩
    unfold GetChannelEntriesThatReplace
    rw [hrows]
    rfl
  · intro entries hok
    unfold GetChannelEntriesThatReplace at hok
    rw [scanLoop_ok (decodeReplaceEntry name)] at hok
    obtain ⟨rfl, _⟩ := finishRows_ok_iff.1 hok
    constructor
    · intro e he
      obtain ⟨t, ht, rfl⟩ := List.mem_map.1 he
      obtain ⟨ce, hce, rep, hrep, hedge, hname, rfl⟩ := mem_entriesThatReplaceRows.1 ht
      exact ⟨rfl, ce, hce, rep, hrep, sqlEq_some_iff.1 hedge, hname, rfl⟩
    · intro ce hce rep hrep hedge hname
      refine List.mem_map.2 ⟨(ce.package_name, ce.channel_name, ce.operatorbundle_name),
        ?_, rfl⟩
      exact mem_entriesThatReplaceRows.2
        ⟨ce, hce, rep, hrep, sqlEq_some_iff.2 hedge, hname, rfl⟩

/-- C6 witness: a bundle name present in no replaces-edge target yields the
not-found error. -/
theorem getChannelEntriesThatReplace_spec_witness :
    GetChannelEntriesThatReplace nothingReplacesDB "Y"
      = .error "no channel entries found that replace Y" :=
  (getChannelEntriesThatReplace_spec nothingReplacesDB "Y").1 (by decide)

/-- C8: the shared row-scan loop either fails (non-`none` error) as soon as any
row fails to decode, or succeeds having decoded every row; consequently each
aggregating operation returns, on success, the decoding of its full row set —
there is no partial-success mode. -/
theorem no_partial_success :
    (∀ (ρ ε : Type) (rows : List ρ) (decode : ρ → Except String ε),
      ((∃ r ∈ rows, ∃ e, decode r = .error e) → (scanLoop rows decode).2 ≠ none)
      ∧ ((scanLoop rows decode).2 = none →
          rows.map decode = (scanLoop rows decode).1.map Except.ok))
    ∧ (∀ db name entries, GetChannelEntriesThatReplace db name = .ok entries →
        entries = (entriesThatReplaceRows db name).map (decodeReplaceEntry name))
    ∧ (∀ db g v kd entries, GetChannelEntriesThatProvide db g v kd = .ok entries →
        entries = (provideRows db g v kd).map decodeProvideEntry)
    ∧ (∀ db g v kd entries, GetLatestChannelEntriesThatProvide db g v kd = .ok entries →
        entries = (latestProvideRows db g v kd).map decodeLatestProvideEntry) := by
  refine ⟨?_, ?_, ?_, ?_⟩
  · intro ρ ε rows decode
    induction rows with
    | nil =>
      refine ⟨?_, fun _ => rfl⟩
      rintro ⟨r, hr, _⟩
      exact absurd hr (List.not_mem_nil r)
    | cons r rs ih =>
      constructor
      · rintro ⟨r', hr', e, he⟩
        rcases List.mem_cons.1 hr' with rfl | hmem
        · intro hcontra
          rw [scanLoop, he] at hcontra
          exact absurd hcontra (by simp)
        · intro hcontra
          rw [scanLoop] at hcontra
          rcases hdec : decode r with e2 | x
          · rw [hdec] at hcontra
            exact absurd hcontra (by simp)
          · rw [hdec] at hcontra
            exact ih.1 ⟨r', hmem, e, he⟩ hcontra
      · intro hnone
        rw [scanLoop] at hnone
        rcases hdec : decode r with e2 | x
        · rw [hdec] at hnone
          exact absurd hnone (by simp)
        · rw [hdec] at hnone
          have hnone2 : (scanLoop rs decode).2 = none := hnone
          show decode r :: List.map decode rs
              = List.map Except.ok (scanLoop (r :: rs) decode).1
          have hfst : (scanLoop (r :: rs) decode).1 = x :: (scanLoop rs decode).1 := by
            rw [scanLoop, hdec]
          rw [hfst, hdec, List.map_cons]
          exact congrArg (Except.ok x :: ·) (ih.2 hnone2)
  · intro db name entries hok
    unfold GetChannelEntriesThatReplace at hok
    rw [scanLoop_ok (decodeReplaceEntry name)] at hok
    exact (finishRows_ok_iff.1 hok).1
  · intro db g v kd entries hok
    unfold GetChannelEntriesThatProvide at hok
    rw [scanLoop_ok decodeProvideEntry] at hok
    exact (finishRows_ok_iff.1 hok).1
  · intro db g v kd entries hok
    unfold GetLatestChannelEntriesThatProvide at hok
    rw [scanLoop_ok decodeLatestProvideEntry] at hok
    exact (finishRows_ok_iff.1 hok).1

/-- C8 witness: a one-row scan whose decoder fails does not report success. -/
theorem no_partial_success_witness :
    (scanLoop [(0 : Nat)] fun _ => (.error "boom" : Except String Nat)).2 ≠ none :=
  (no_partial_success.1 Nat Nat [0] fun _ => .error "boom").1
    ⟨0, List.mem_cons_self 0 [], "boom", rfl⟩

/-- C5 counterexample: in `nullPayloadDB` the provide-query matches a row
(the joined row set is nonempty), yet `GetBundleThatProvides` fails because
the matched row's `bundle` payload is null — contradicting the claim that a
null field within a matched row never causes an operation to fail. -/
theorem null_field_counterexample :
    defaultProvideJoinRows nullPayloadDB "g" "v" "k" ≠ []
    ∧ GetBundleThatProvides nullPayloadDB "g" "v" "k"
        = .error "no bundle found that provides g v k" :=
  ⟨by decide, by decide⟩

/-- C5 (amended): for every operation other than `GetBundleThatProvides`, a
null textual field decodes to the empty string and never fails a matched row
or the operation — whenever the query yields at least one row the operation
succeeds, single-payload reads returning the decoded (possibly empty) payload
of the first row; `GetBundleThatProvides` alone also fails, with its not-found
error, when the payload of its first result row is null (and succeeds when it
is non-null). -/
theorem null_field_decoding_amended :
    (∀ db, ∃ l, ListPackages db = .ok l)
    ∧ (∀ db name t rest, getPackageRows db name = t :: rest →
        ∃ m, GetPackage db name = .ok m)
    ∧ (∀ db p c b rest, bundleForChannelRows db p c = b :: rest →
        GetBundleForChannel db p c = .ok (nullStr b))
    ∧ (∀ db n b rest, bundleForNameRows db n = b :: rest →
        GetBundleForName db n = .ok (nullStr b))
    ∧ (∀ db n p c b rest, bundleThatReplacesRows db n p c = b :: rest →
        GetBundleThatReplaces db n p c = .ok (nullStr b))
    ∧ (∀ db n t rest, entriesThatReplaceRows db n = t :: rest →
        ∃ es, GetChannelEntriesThatReplace db n = .ok es)
    ∧ (∀ db g v kd t rest, provideRows db g v kd = t :: rest →
        ∃ es, GetChannelEntriesThatProvide db g v kd = .ok es)
    ∧ (∀ db g v kd t rest, latestProvideRows db g v kd = t :: rest →
        ∃ es, GetLatestChannelEntriesThatProvide db g v kd = .ok es)
    ∧ (∀ db g v kd dep rest, defaultProvideRows db g v kd = (none, dep) :: rest →
        GetBundleThatProvides db g v kd
          = .error ("no bundle found that provides " ++ g ++ " " ++ v ++ " " ++ kd))
    ∧ (∀ db g v kd s dep rest, defaultProvideRows db g v kd = (some s, dep) :: rest →
        GetBundleThatProvides db g v kd = .ok s) := by
  refine ⟨fun db => ⟨_, rfl⟩, ?_, ?_, ?_, ?_, ?_, ?_, ?_, ?_, ?_⟩
  · intro db name t rest h
    unfold GetPackage
    rw [h]
    cases t with
    | mk pn t2 =>
      obtain ⟨dc, cn, hb⟩ := t2
      cases rest with
      | nil => exact ⟨_, rfl⟩
      | cons t2 rest2 =>
        obtain ⟨pn2, dc2, cn2, hb2⟩ := t2
        exact ⟨_, rfl⟩
  · intro db p c b rest h
    unfold GetBundleForChannel
    rw [h]
  · intro db n b rest h
    unfold GetBundleForName
    rw [h]
  · intro db n p c b rest h
    unfold GetBundleThatReplaces
    rw [h]
  · intro db n t rest h
    unfold GetChannelEntriesThatReplace
    rw [scanLoop_ok (decodeReplaceEntry n), h]
    exact ⟨_, finishRows_ne_nil_ok (by simp)⟩
  · intro db g v kd t rest h
    unfold GetChannelEntriesThatProvide
    rw [scanLoop_ok decodeProvideEntry, h]
    exact ⟨_, finishRows_ne_nil_ok (by simp)⟩
  · intro db g v kd t rest h
    unfold GetLatestChannelEntriesThatProvide
    rw [scanLoop_ok decodeLatestProvideEntry, h]
    exact ⟨_, finishRows_ne_nil_ok (by simp)⟩
  · intro db g v kd dep rest h
    unfold GetBundleThatProvides
    rw [h]
  · intro db g v kd s dep rest h
    unfold GetBundleThatProvides
    rw [h]

/-- C5 (amended) witness: the head bundle of `nullPayloadDB`'s channel has a
null payload, and `GetBundleForChannel` succeeds with the empty string. -/
theorem null_field_decoding_amended_witness :
    GetBundleForChannel nullPayloadDB "P" "Ch" = .ok "" :=
  null_field_decoding_amended.2.2.1 nullPayloadDB "P" "Ch" none [] (by decide)

/-- C2: `GetLatestChannelEntriesThatProvide` fails with not-found exactly when
no channel entry provides the API; on success it returns one entry per
distinct (package, channel) pair among the providing joined rows, each entry
decoded from a row of its group attaining the minimal depth. -/
theorem getLatestChannelEntriesThatProvide_spec (db : DB) (g v kd : String) :
    (provideJoinRows db g v kd = [] →
      GetLatestChannelEntriesThatProvide db g v kd
        = .error ("no channel entries found that provide " ++ g ++ " " ++ v ++ " " ++ kd))
    ∧ (provideJoinRows db g v kd ≠ [] →
        ∃ entries, GetLatestChannelEntriesThatProvide db g v kd = .ok entries)
    ∧ (∀ entries, GetLatestChannelEntriesThatProvide db g v kd = .ok entries →
        entries.length = (groupKeys provKey (provideJoinRows db g v kd)).length
        ∧ (∀ key ∈ groupKeys provKey (provideJoinRows db g v kd),
            ∃ r ∈ groupOf provKey (provideJoinRows db g v kd) key,
              (∀ x ∈ groupOf provKey (provideJoinRows db g v kd) key, r.depth ≤ x.depth)
              ∧ decodeLatestProvideEntry
                  (r.package_name, r.channel_name, r.operatorbundle_name,
                    r.replaces_name, r.depth) ∈ entries)
        ∧ (∀ e ∈ entries,
            ∃ key ∈ groupKeys provKey (provideJoinRows db g v kd),
              ∃ r ∈ groupOf provKey (provideJoinRows db g v kd) key,
                (∀ x ∈ groupOf provKey (provideJoinRows db g v kd) key, r.depth ≤ x.depth)
                ∧ e = decodeLatestProvideEntry
                    (r.package_name, r.channel_name, r.operatorbundle_name,
                      r.replaces_name, r.depth))) := by
  have hnodup : (latestProvideSel db g v kd).Nodup :=
    grouped_sel_nodup provKey ProvideRow.depth
      (fun r => (r.package_name, r.channel_name, r.operatorbundle_name,
        r.replaces_name, r.depth))
      (provideJoinRows db g v kd) (fun t => (t.1, t.2.1)) (fun r => rfl)
  have hdist : latestProvideRows db g v kd = latestProvideSel db g v kd :=
    sqlDistinct_eq_self hnodup
  refine ⟨?_, ?_, ?_⟩
  · intro h
    have h1 : latestProvideRows db g v kd = [] := by
      unfold latestProvideRows latestProvideSel
      rw [h]
      rfl
    unfold GetLatestChannelEntriesThatProvide
    rw [h1]
    rfl
  · intro h
    obtain ⟨r0, hr0⟩ := List.exists_mem_of_ne_nil _ h
    have hkey : provKey r0 ∈ groupKeys provKey (provideJoinRows db g v kd) :=
      mem_groupKeys.2 ⟨r0, hr0, rfl⟩
    obtain ⟨rm, hrm⟩ := pickMinRow_isSome (groupOf_ne_nil hkey)
    have hsel : (rm.package_name, rm.channel_name, rm.operatorbundle_name,
        rm.replaces_name, rm.depth) ∈ latestProvideSel db g v kd :=
      (mem_grouped_sel provKey ProvideRow.depth _ (provideJoinRows db g v kd) _).2
        ⟨provKey r0, hkey, rm, hrm, rfl⟩
    have hne : latestProvideRows db g v kd ≠ [] := by
      rw [hdist]
      exact List.ne_nil_of_mem hsel
    refine ⟨(latestProvideRows db g v kd).map decodeLatestProvideEntry, ?_⟩
    unfold GetLatestChannelEntriesThatProvide
    rw [scanLoop_ok decodeLatestProvideEntry]
    exact finishRows_ne_nil_ok (by simpa using hne)
  · intro entries hok
    unfold GetLatestChannelEntriesThatProvide at hok
    rw [scanLoop_ok decodeLatestProvideEntry] at hok
    obtain ⟨rfl, _⟩ := finishRows_ok_iff.1 hok
    refine ⟨?_, ?_, ?_⟩
    · rw [List.length_map, hdist]
      exact grouped_sel_length provKey ProvideRow.depth _ (provideJoinRows db g v kd)
    · intro key hkey
      obtain ⟨rm, hrm⟩ := pickMinRow_isSome (groupOf_ne_nil hkey)
      obtain ⟨hrmem, hrmin⟩ := pickMinRow_eq_some hrm
      refine ⟨rm, hrmem, hrmin, ?_⟩
      refine List.mem_map_of_mem decodeLatestProvideEntry ?_
      rw [hdist]
      exact (mem_grouped_sel provKey ProvideRow.depth _ (provideJoinRows db g v kd) _).2
        ⟨key, hkey, rm, hrm, rfl⟩
    · intro e he
      obtain ⟨t, ht, rfl⟩ := List.mem_map.1 he
      rw [hdist] at ht
      obtain ⟨key, hkey, r, hpick, rfl⟩ :=
        (mem_grouped_sel provKey ProvideRow.depth _ (provideJoinRows db g v kd) _).1 ht
      obtain ⟨hrmem, hrmin⟩ := pickMinRow_eq_some hpick
      exact ⟨key, hkey, r, hrmem, hrmin, rfl⟩

/-- C2 witness: on a store with no provider of the API the not-found error is
produced, and on the chain store (B and C provide the API at depths 2 and 3)
the operation succeeds. -/
theorem getLatestChannelEntriesThatProvide_spec_witness :
    GetLatestChannelEntriesThatProvide etcdDB1 "x" "y" "z"
      = .error "no channel entries found that provide x y z"
    ∧ ∃ entries, GetLatestChannelEntriesThatProvide chainDB "g" "v" "k" = .ok entries :=
  ⟨(getLatestChannelEntriesThatProvide_spec etcdDB1 "x" "y" "z").1 (by decide),
   (getLatestChannelEntriesThatProvide_spec chainDB "g" "v" "k").2.1 (by decide)⟩

/-- C1: `GetBundleThatProvides` fails with not-found when no channel entry of
a package's default channel provides the API; any returned payload is the
first result row's bundle and comes from a default-channel providing row of
minimal depth within its (package, channel) group; on the concrete scenario,
adding a depth-1 provider does not change the returned payload. -/
theorem getBundleThatProvides_spec (db : DB) (g v kd : String) :
    (defaultProvideJoinRows db g v kd = [] →
      GetBundleThatProvides db g v kd
        = .error ("no bundle found that provides " ++ g ++ " " ++ v ++ " " ++ kd))
    ∧ (∀ b, GetBundleThatProvides db g v kd = .ok b →
        (∃ dep rest, defaultProvideRows db g v kd = (some b, dep) :: rest)
        ∧ ∃ key ∈ groupKeys defKey (defaultProvideJoinRows db g v kd),
            ∃ r ∈ groupOf defKey (defaultProvideJoinRows db g v kd) key,
              (∀ x ∈ groupOf defKey (defaultProvideJoinRows db g v kd) key,
                r.depth ≤ x.depth)
              ∧ r.bundle = some b)
    ∧ GetBundleThatProvides etcdDB1 "etcd.database.coreos.com" "v1" "EtcdCluster"
        = .ok "payload-1.0.0"
    ∧ GetBundleThatProvides etcdDB2 "etcd.database.coreos.com" "v1" "EtcdCluster"
        = .ok "payload-1.0.0" := by
  refine ⟨?_, ?_, by decide, by decide⟩
  · intro h
    have h1 : defaultProvideRows db g v kd = [] := by
      unfold defaultProvideRows defaultProvideSel
      rw [h]
      rfl
    unfold GetBundleThatProvides
    rw [h1]
  · intro b hb
    unfold GetBundleThatProvides at hb
    rcases hrows : defaultProvideRows db g v kd with _ | ⟨⟨b0, dep⟩, rest⟩
    · rw [hrows] at hb
      exact absurd hb (by simp)
    · rw [hrows] at hb
      cases b0 with
      | none => exact absurd hb (by simp)
      | some s =>
        obtain rfl : s = b := Except.ok.inj hb
        refine ⟨⟨dep, rest, rfl⟩, ?_⟩
        have hmem : (some s, dep) ∈ defaultProvideSel db g v kd := by
          refine (mem_sqlDistinct _ _).1 ?_
          show (some s, dep) ∈ defaultProvideRows db g v kd
          rw [hrows]
          exact List.mem_cons_self _ _
        obtain ⟨key, hkey, r, hpick, hproj⟩ :=
          (mem_grouped_sel defKey DefaultProvideRow.depth _
            (defaultProvideJoinRows db g v kd) _).1 hmem
        obtain ⟨hrmem, hrmin⟩ := pickMinRow_eq_some hpick
        exact ⟨key, hkey, r, hrmem, hrmin, congrArg Prod.fst hproj⟩

/-- C1 witness: on a store with no default-channel provider of the API the
not-found error is produced. -/
theorem getBundleThatProvides_spec_witness :
    GetBundleThatProvides etcdDB1 "x" "y" "z"
      = .error "no bundle found that provides x y z" :=
  (getBundleThatProvides_spec etcdDB1 "x" "y" "z").1 (by decide)

end Sqlite
